import Mathlib

/-!
Shallow embedding of `web_monitor.py` (crypto-live-dashboard): the ingestion
and fan-out hub.  Prices, quantities and rates are modelled as rationals;
symbols as lists of characters; the wall-clock time formatter (US/Eastern
rendering of a millisecond timestamp) is an external collaborator and is
passed to the stream handlers as an abstract function `fmt : Int → String`.
-/

namespace WebMonitor

/-- Python's `s.replace('USDT', '')`: left-to-right, non-overlapping removal of
every occurrence of the four characters `USDT`. -/
def stripUSDT : List Char → List Char
  | 'U' :: 'S' :: 'D' :: 'T' :: rest => stripUSDT rest
  | c :: rest => c :: stripUSDT rest
  | [] => []

/-- Two-digit zero-padded rendering of a natural number below 100. -/
def padTwo (n : Nat) : String :=
  if n < 10 then "0" ++ toString n else toString n

/-- Decimal rendering of a non-negative rational to 2 places.  Python formats
the binary float with round-half-even; the digit rounding is display-only and
modelled here as decimal rounding. -/
def twoDecimalsStr (x : ℚ) : String :=
  let n : ℤ := round (x * 100)
  toString (n / 100) ++ "." ++ padTwo (n % 100).toNat

/-- Decimal rendering of a non-negative rational to 1 place. -/
def oneDecimalStr (x : ℚ) : String :=
  let n : ℤ := round (x * 10)
  toString (n / 10) ++ "." ++ toString (n % 10).toNat

/-- Decimal rendering of a non-negative rational to 0 places. -/
def zeroDecimalStr (x : ℚ) : String :=
  toString (round x : ℤ)

/-- `format_usd` (web_monitor.py lines 31-38): magnitude-suffixed USD display. -/
def format_usd (amount : ℚ) : String :=
  if 1000000 ≤ amount then "$" ++ twoDecimalsStr (amount / 1000000) ++ "M"
  else if 1000 ≤ amount then "$" ++ oneDecimalStr (amount / 1000) ++ "K"
  else "$" ++ zeroDecimalStr amount

/-- `get_funding_style_class` (lines 40-51): severity tier of the annualized
funding rate. -/
def get_funding_style_class (yearly_rate : ℚ) : String :=
  if 50 < yearly_rate then "funding-extreme"
  else if 30 < yearly_rate then "funding-high"
  else if 5 < yearly_rate then "funding-positive"
  else if yearly_rate < -10 then "funding-negative"
  else "funding-normal"

/-- One entry of the `funding_data` dict (lines 83-88). -/
structure FundingEntry where
  symbol_display : List Char
  funding_rate : ℚ
  yearly_rate : ℚ
  style_class : String
deriving DecidableEq

/-- One entry of the `recent_liquidations` deque (lines 127-134). -/
structure Liq where
  symbol : List Char
  side : String
  side_text : String
  usd_size : String
  time : String
  color_class : String
deriving DecidableEq

/-- One entry of the `recent_trades` deque (lines 176-183). -/
structure Trade where
  symbol : List Char
  type : String
  usd_size : String
  price : ℚ
  time : String
  color_class : String
deriving DecidableEq

/-- One entry of the `whale_alerts` deque: `trade.copy()` plus the extra
fields set at lines 189-201. -/
structure WhaleAlert where
  symbol : List Char
  type : String
  usd_size : String
  price : ℚ
  time : String
  color_class : String
  usd_value : ℚ
  whale_class : String
  size_indicator : String
deriving DecidableEq

/-- `deque(maxlen := cap).appendleft x`: the new element goes to the head and,
when the deque is full, the rightmost (oldest) element is discarded. -/
def appendleftCapped (cap : Nat) (x : α) (buf : List α) : List α :=
  (x :: buf).take cap

/-- A whole sequence of `appendleft` insertions, oldest insertion first. -/
def insertAll (cap : Nat) (xs : List α) (buf : List α) : List α :=
  xs.foldl (fun b x => appendleftCapped cap x b) buf

/-- The shared mutable state of the module: the four history containers
(lines 23-26).  The funding dict is keyed by the lowercase stream symbol. -/
structure HubState where
  funding : List Char → Option FundingEntry
  liqs : List Liq
  trades : List Trade
  whales : List WhaleAlert

/-- Initial state: every funding key maps to `None`, all deques empty. -/
def initial_hub : HubState :=
  { funding := fun _ => none, liqs := [], trades := [], whales := [] }

/-- The events pushed to subscribers (the `{'type': ..., 'data': ...}` dicts),
one constructor per `type` tag. -/
inductive Event where
  | funding_update (data : List Char → Option FundingEntry)
  | liquidation_update (data : List Liq)
  | trade_update (data : List Trade)
  | whale_alert_update (data : List WhaleAlert)
  | initial_data (funding : List Char → Option FundingEntry)
      (liquidations : List Liq) (trades : List Trade)
      (whale_alerts : List WhaleAlert)

/-- Parsed funding message: fields `s` and `r` of a markPrice message. -/
structure FundingMsg where
  s : List Char
  r : ℚ

/-- Parsed liquidation order (the `'o'` object): `s`, `S`, `T`, `z`, `p`. -/
structure LiqMsg where
  s : List Char
  S : String
  T : ℤ
  z : ℚ
  p : ℚ

/-- Parsed aggTrade message: fields `p`, `q`, `T`, `m`. -/
structure TradeMsg where
  p : ℚ
  q : ℚ
  T : ℤ
  m : Bool

/-- Body of the funding stream's message processing (lines 79-94): update the
dict entry for this stream's symbol and broadcast the whole dict. -/
def fundingStep (sym : List Char) (msg : FundingMsg) (st : HubState) :
    HubState × List Event :=
  let symbol_display := (stripUSDT msg.s).map Char.toUpper
  let funding_rate := msg.r * 100
  let yearly_funding_rate := funding_rate * 3 * 365
  let entry : FundingEntry :=
    { symbol_display := symbol_display
      funding_rate := funding_rate
      yearly_rate := yearly_funding_rate
      style_class := get_funding_style_class yearly_funding_rate }
  let fd := fun s => if s = sym then some entry else st.funding s
  ({ st with funding := fd }, [Event.funding_update fd])

/-- The liquidation dict built at lines 127-134. -/
def mkLiquidation (fmt : ℤ → String) (msg : LiqMsg) : Liq :=
  let symbol := stripUSDT msg.s
  let usd_size := msg.z * msg.p
  { symbol := symbol.take 4
    side := msg.S
    side_text := if msg.S = "SELL" then "LONG LIQ" else "SHORT LIQ"
    usd_size := format_usd usd_size
    time := fmt msg.T
    color_class := if msg.S = "SELL" then "liquidation-long" else "liquidation-short" }

/-- Body of the liquidation stream's message processing (lines 115-141):
insert iff the notional is at least 5000, then broadcast the whole buffer. -/
def liqStep (fmt : ℤ → String) (msg : LiqMsg) (st : HubState) :
    HubState × List Event :=
  let usd_size := msg.z * msg.p
  if 5000 ≤ usd_size then
    let buf := appendleftCapped 25 (mkLiquidation fmt msg) st.liqs
    ({ st with liqs := buf }, [Event.liquidation_update buf])
  else (st, [])

/-- The trade dict built at lines 171-183. -/
def mkTrade (fmt : ℤ → String) (sym : List Char) (msg : TradeMsg) : Trade :=
  let usd_size := msg.p * msg.q
  let trade_type : String := if msg.m then "SELL" else "BUY"
  let display_symbol := stripUSDT (sym.map Char.toUpper)
  { symbol := display_symbol.take 4
    type := trade_type
    usd_size := format_usd usd_size
    price := msg.p
    time := fmt msg.T
    color_class := if trade_type = "BUY" then "trade-buy" else "trade-sell" }

/-- The whale-alert dict built at lines 189-201: a copy of the trade dict plus
`usd_value`, `whale_class` and `size_indicator`. -/
def mkWhale (fmt : ℤ → String) (sym : List Char) (msg : TradeMsg) : WhaleAlert :=
  let t := mkTrade fmt sym msg
  let usd_size := msg.p * msg.q
  { symbol := t.symbol
    type := t.type
    usd_size := t.usd_size
    price := t.price
    time := t.time
    color_class := t.color_class
    usd_value := usd_size
    whale_class :=
      if 1000000 ≤ usd_size then "whale-mega"
      else if 500000 ≤ usd_size then "whale-huge"
      else "whale-big"
    size_indicator :=
      if 1000000 ≤ usd_size then "MEGA"
      else if 500000 ≤ usd_size then "HUGE"
      else "BIG" }

/-- Body of the trade stream's message processing (lines 163-213): insert the
trade iff the notional is at least 15000; additionally insert a whale alert
iff it is at least 100000.  The whale broadcast precedes the trade broadcast,
as in the source. -/
def tradeStep (fmt : ℤ → String) (sym : List Char) (msg : TradeMsg)
    (st : HubState) : HubState × List Event :=
  let usd_size := msg.p * msg.q
  if 15000 ≤ usd_size then
    let trades := appendleftCapped 30 (mkTrade fmt sym msg) st.trades
    if 100000 ≤ usd_size then
      let whales := appendleftCapped 15 (mkWhale fmt sym msg) st.whales
      ({ st with trades := trades, whales := whales },
        [Event.whale_alert_update whales, Event.trade_update trades])
    else
      ({ st with trades := trades }, [Event.trade_update trades])
  else (st, [])

/-- The configured symbol list (line 20). -/
def symbols : List (List Char) :=
  [String.toList "btcusdt", String.toList "ethusdt", String.toList "solusdt",
   String.toList "bnbusdt", String.toList "dogeusdt", String.toList "wifusdt"]

/-! ## The inner receive loop and the outer reconnect loop -/

/-- One raw message received on a stream connection, as the inner `try` sees
it: `unparseable` models `json.loads` raising `JSONDecodeError`; `malformed`
models a message that parses as JSON but whose processing raises some other
exception (e.g. a missing key); `ok` carries a fully processed payload. -/
inductive InMsg (M : Type) where
  | unparseable
  | malformed
  | ok (m : M)

/-- What the inner loop does after one message: keep receiving on the same
connection (`continue`), or `break` out — which closes the connection and
falls back to the outer reconnect loop. -/
inductive Flow where
  | cont
  | brk
deriving DecidableEq

/-- Inner iteration of `binance_funding_stream` (lines 74-100): a
`JSONDecodeError` hits `continue`, every other exception hits the generic
handler and breaks. -/
def fundingInner (sym : List Char) :
    InMsg FundingMsg → HubState → HubState × List Event × Flow
  | InMsg.unparseable, st => (st, [], Flow.cont)
  | InMsg.malformed, st => (st, [], Flow.brk)
  | InMsg.ok m, st =>
    let r := fundingStep sym m st
    (r.1, r.2, Flow.cont)

/-- Inner iteration of `binance_liquidation_stream` (lines 113-145): there is
no dedicated `JSONDecodeError` handler, so a parse failure is caught by the
generic `except Exception` and breaks, like any other processing error. -/
def liqInner (fmt : ℤ → String) :
    InMsg LiqMsg → HubState → HubState × List Event × Flow
  | InMsg.unparseable, st => (st, [], Flow.brk)
  | InMsg.malformed, st => (st, [], Flow.brk)
  | InMsg.ok m, st =>
    let r := liqStep fmt m st
    (r.1, r.2, Flow.cont)

/-- Inner iteration of `binance_trade_stream` (lines 158-217): as for the
liquidation stream, every exception — parse failures included — breaks. -/
def tradeInner (fmt : ℤ → String) (sym : List Char) :
    InMsg TradeMsg → HubState → HubState × List Event × Flow
  | InMsg.unparseable, st => (st, [], Flow.brk)
  | InMsg.malformed, st => (st, [], Flow.brk)
  | InMsg.ok m, st =>
    let r := tradeStep fmt sym m st
    (r.1, r.2, Flow.cont)

/-- Run the inner `while True` over a finite prefix of received messages,
stopping at the first `break`. -/
def runInner (inner : InMsg M → HubState → HubState × List Event × Flow) :
    List (InMsg M) → HubState → HubState × List Event
  | [], st => (st, [])
  | m :: rest, st =>
    match inner m st with
    | (st', evs, Flow.brk) => (st', evs)
    | (st', evs, Flow.cont) =>
      let r := runInner inner rest st'
      (r.1, evs ++ r.2)

/-- What one iteration of the outer `while True` encounters: either `connect`
raises (`openFail`), or a session is established and the inner loop processes
`msgs` until its first `break`. -/
inductive OuterEvent (M : Type) where
  | openFail
  | session (msgs : List (InMsg M))

/-- One iteration of the outer reconnect loop.  The third component is the
time slept before the next connection attempt: an open failure reaches the
outer `except` and sleeps 5; an inner `break` leaves the `async with` block
without an exception, so the outer `except` — and its `sleep(5)` — is never
reached and the loop reconnects immediately (sleep 0). -/
def outerIter (inner : InMsg M → HubState → HubState × List Event × Flow)
    (st : HubState) : OuterEvent M → HubState × List Event × Nat
  | OuterEvent.openFail => (st, [], 5)
  | OuterEvent.session msgs =>
    let r := runInner inner msgs st
    (r.1, r.2, 0)

/-- Run the outer loop over a finite prefix of connection outcomes, counting
the connection attempts made; every outcome is followed by a further attempt
(the loop has no terminal state). -/
def runConsumer (inner : InMsg M → HubState → HubState × List Event × Flow) :
    List (OuterEvent M) → HubState → HubState × List Event × Nat
  | [], st => (st, [], 0)
  | e :: rest, st =>
    let r := outerIter inner st e
    let r2 := runConsumer inner rest r.1
    (r2.1, r.2.1 ++ r2.2.1, r2.2.2 + 1)

/-! ## The broadcast hub and the subscriber registry -/

/-- A subscriber connection handle. -/
abbrev Client := Nat

/-- `broadcast_to_clients` (lines 53-65).  `send c = true` models
`client.send_text` succeeding; `false` models it raising, which the
per-client `try` catches, appending the client to `disconnected`.  After the
loop each disconnected client is removed with `list.remove` (which drops the
first occurrence).  The result is the list of clients actually delivered to
(in iteration order) and the registry after removal.  The function is total:
no exception escapes the hub. -/
def broadcast_to_clients (send : Client → Bool) (clients : List Client) :
    List Client × List Client :=
  if clients.isEmpty then ([], clients)
  else
    let delivered := clients.filter (fun c => send c)
    let disconnected := clients.filter (fun c => !(send c))
    (delivered, disconnected.foldl (fun l c => l.erase c) clients)

/-- `connected_clients.remove(ws)` as performed by `websocket_endpoint`
(line 243) and by the broadcast cleanup (line 65): Python `list.remove`
removes the first occurrence, and raises `ValueError` when the element is
absent. -/
def unregister (clients : List Client) (c : Client) :
    Except String (List Client) :=
  if c ∈ clients then Except.ok (clients.erase c)
  else Except.error "ValueError"

/-! ## The subscriber-facing system: state, registry and per-client inboxes -/

/-- One state mutation performed by some feed consumer. -/
inductive UpdateOp where
  | funding (sym : List Char) (msg : FundingMsg)
  | liq (msg : LiqMsg)
  | trade (sym : List Char) (msg : TradeMsg)

/-- Dispatch an update to the corresponding stream step. -/
def applyUpdate (fmt : ℤ → String) : UpdateOp → HubState → HubState × List Event
  | UpdateOp.funding sym msg, st => fundingStep sym msg st
  | UpdateOp.liq msg, st => liqStep fmt msg st
  | UpdateOp.trade sym msg, st => tradeStep fmt sym msg st

/-- Whole-system state: the shared containers, the subscriber registry, and
each client's inbox (the sequence of events its connection has been sent). -/
structure Sys where
  st : HubState
  clients : List Client
  inbox : Client → List Event

/-- The system at process start: no subscribers, nothing sent. -/
def initialSys : Sys :=
  { st := initial_hub, clients := [], inbox := fun _ => [] }

/-- One feed-consumer update followed by its broadcasts: the state mutates
and every currently registered client receives the emitted events (sends
assumed to succeed here; delivery failure is the concern of
`broadcast_to_clients`). -/
def applySysUpdate (fmt : ℤ → String) (op : UpdateOp) (s : Sys) : Sys :=
  let r := applyUpdate fmt op s.st
  { st := r.1
    clients := s.clients
    inbox := fun x => if x ∈ s.clients then s.inbox x ++ r.2 else s.inbox x }

/-- `websocket_endpoint` on connect (lines 226-236): append the new client to
the registry, then send it one `initial_data` event carrying the complete
current contents of all four containers. -/
def registerClient (s : Sys) (c : Client) : Sys :=
  { st := s.st
    clients := s.clients ++ [c]
    inbox := fun x =>
      if x = c then
        s.inbox x ++
          [Event.initial_data s.st.funding s.st.liqs s.st.trades s.st.whales]
      else s.inbox x }

/-- The claim's description of the trade display symbol: the uppercased
stream symbol with a trailing `USDT` removed.  Stated from the claim's words,
to be compared with the source's `replace('USDT', '')` (`stripUSDT`). -/
def dropUSDTSuffix (s : List Char) : List Char :=
  if (String.toList "USDT").isSuffixOf s then s.take (s.length - 4) else s

/-! ## Concrete sample inputs used by witnesses -/

/-- A concrete time formatter (the rendered time is irrelevant throughout). -/
def fmt0 : ℤ → String := fun _ => ""

/-- A liquidation exactly at the 5000 notional boundary. -/
def lmA : LiqMsg := { s := String.toList "BTCUSDT", S := "SELL", T := 0, z := 1, p := 5000 }

/-- A liquidation one unit below the 5000 notional boundary. -/
def lmB : LiqMsg := { s := String.toList "BTCUSDT", S := "SELL", T := 0, z := 1, p := 4999 }

/-- A trade exactly at the 15000 notional boundary. -/
def tmA : TradeMsg := { p := 15000, q := 1, T := 0, m := false }

/-- A trade one unit below the 15000 notional boundary. -/
def tmB : TradeMsg := { p := 14999, q := 1, T := 0, m := false }

/-- A trade exactly at the 100000 whale boundary. -/
def tmC : TradeMsg := { p := 100000, q := 1, T := 0, m := false }

/-- A trade one unit below the 100000 whale boundary. -/
def tmD : TradeMsg := { p := 99999, q := 1, T := 0, m := false }

/-- The end-to-end scenario trade: price 50000, quantity 3, buyer not maker. -/
def tmE : TradeMsg := { p := 50000, q := 3, T := 0, m := false }

/-- A concrete liquidation buffer entry. -/
def sampleLiq : Liq :=
  { symbol := String.toList "BTC", side := "SELL", side_text := "LONG LIQ"
    usd_size := "$5.0K", time := "", color_class := "liquidation-long" }

/-- A concrete trade buffer entry. -/
def sampleTrade : Trade :=
  { symbol := String.toList "BTC", type := "BUY", usd_size := "$15.0K"
    price := 15000, time := "", color_class := "trade-buy" }

/-- A concrete whale buffer entry. -/
def sampleWhale : WhaleAlert :=
  { symbol := String.toList "BTC", type := "BUY", usd_size := "$150.0K"
    price := 50000, time := "", color_class := "trade-buy"
    usd_value := 150000, whale_class := "whale-big", size_indicator := "BIG" }

/-- A send operation whose transport is broken exactly for client 1. -/
def sendW : Client → Bool := fun c => !(c == 1)

/-! ## Helper lemmas -/

/-- The outer loop makes one connection attempt per outcome: it never
terminates on its own. -/
lemma runConsumer_attempts
    (inner : InMsg M → HubState → HubState × List Event × Flow) :
    ∀ (evs : List (OuterEvent M)) (st : HubState),
      (runConsumer inner evs st).2.2 = evs.length := by
  intro evs
  induction evs with
  | nil => intro st; rfl
  | cons e rest ih =>
    intro st
    simp only [runConsumer, ih, List.length_cons]

/-- Erasing elements none of which is `x` leaves a head `x` in place. -/
lemma foldl_erase_cons_of_not_mem (d : List Client) (x : Client)
    (acc : List Client) (hx : x ∉ d) :
    d.foldl (fun l c => l.erase c) (x :: acc) =
      x :: d.foldl (fun l c => l.erase c) acc := by
  induction d generalizing acc with
  | nil => rfl
  | cons c d ih =>
    simp only [List.foldl_cons]
    have hcx : c ≠ x := by
      rintro rfl
      exact hx (List.mem_cons_self _ _)
    rw [List.erase_cons_tail]
    · exact ih _ (fun h => hx (List.mem_cons_of_mem _ h))
    · simp [Ne.symm hcx]

/-- Removing (once each) exactly the elements failing `p` from a
duplicate-free list leaves exactly the elements satisfying `p`. -/
lemma foldl_erase_filter (p : Client → Bool) :
    ∀ (l : List Client), l.Nodup →
      (l.filter (fun c => !(p c))).foldl (fun a c => a.erase c) l =
        l.filter p := by
  intro l hl
  induction l with
  | nil => rfl
  | cons x xs ih =>
    have hx : x ∉ xs := (List.nodup_cons.mp hl).1
    have hxs : xs.Nodup := (List.nodup_cons.mp hl).2
    by_cases hp : p x
    · have h1 : List.filter (fun c => !(p c)) (x :: xs) =
          List.filter (fun c => !(p c)) xs := by
        simp [List.filter_cons, hp]
      have h2 : List.filter p (x :: xs) = x :: List.filter p xs := by
        simp [List.filter_cons, hp]
      rw [h1, h2, foldl_erase_cons_of_not_mem _ x xs
          (fun h => hx (List.mem_of_mem_filter h)), ih hxs]
    · have hp' : p x = false := by simpa using hp
      have h1 : List.filter (fun c => !(p c)) (x :: xs) =
          x :: List.filter (fun c => !(p c)) xs := by
        simp [List.filter_cons, hp']
      have h2 : List.filter p (x :: xs) = List.filter p xs := by
        simp [List.filter_cons, hp']
      rw [h1, h2, List.foldl_cons, List.erase_cons_head, ih hxs]

/-- Each capped insertion keeps the buffer within its capacity. -/
lemma insertAll_length_le (cap : Nat) :
    ∀ (xs : List α) (buf : List α), buf.length ≤ cap →
      (insertAll cap xs buf).length ≤ cap := by
  intro xs
  induction xs with
  | nil => intro buf h; exact h
  | cons x xs ih =>
    intro buf _
    have hstep : (appendleftCapped cap x buf).length ≤ cap := by
      simp [appendleftCapped, List.length_take]
    exact ih _ hstep

/-- Taking all but one element of a list of length `n + 1` is `dropLast`. -/
lemma take_eq_dropLast : ∀ (l : List α) (n : Nat),
    l.length = n + 1 → l.take n = l.dropLast := by
  intro l n h
  rw [List.dropLast_eq_take, h]
  simp

/-- Updates never touch the registry. -/
lemma foldl_applySysUpdate_clients (fmt : ℤ → String) :
    ∀ (ops : List UpdateOp) (s0 : Sys),
      (ops.foldl (fun s op => applySysUpdate fmt op s) s0).clients =
        s0.clients := by
  intro ops
  induction ops with
  | nil => intro s0; rfl
  | cons op rest ih =>
    intro s0
    rw [List.foldl_cons, ih]
    rfl

/-- A client outside the registry receives nothing from update broadcasts. -/
lemma foldl_applySysUpdate_inbox_of_not_mem (fmt : ℤ → String) :
    ∀ (ops : List UpdateOp) (s0 : Sys) (c : Client), c ∉ s0.clients →
      (ops.foldl (fun s op => applySysUpdate fmt op s) s0).inbox c =
        s0.inbox c := by
  intro ops
  induction ops with
  | nil => intro s0 c _; rfl
  | cons op rest ih =>
    intro s0 c hc
    rw [List.foldl_cons]
    have hc' : c ∉ (applySysUpdate fmt op s0).clients := hc
    rw [ih _ _ hc']
    simp [applySysUpdate, hc]

/-! ## Claim theorems -/

/-- Claim C8: severity classification is a pure function of the annualized
rate: extreme for r > 50, high for 30 < r ≤ 50, positive for 5 < r ≤ 30,
negative for r < -10, normal otherwise; and the inputs 60, 40, 10, -15, 0 map
to extreme, high, positive, negative, normal respectively. -/
theorem funding_severity_classification : ∀ (r : ℚ),
    (50 < r → get_funding_style_class r = "funding-extreme") ∧
    (30 < r ∧ r ≤ 50 → get_funding_style_class r = "funding-high") ∧
    (5 < r ∧ r ≤ 30 → get_funding_style_class r = "funding-positive") ∧
    (r < -10 → get_funding_style_class r = "funding-negative") ∧
    (-10 ≤ r ∧ r ≤ 5 → get_funding_style_class r = "funding-normal") ∧
    get_funding_style_class 60 = "funding-extreme" ∧
    get_funding_style_class 40 = "funding-high" ∧
    get_funding_style_class 10 = "funding-positive" ∧
    get_funding_style_class (-15) = "funding-negative" ∧
    get_funding_style_class 0 = "funding-normal" := by
  intro r
  refine ⟨?_, ?_, ?_, ?_, ?_, ?_, ?_, ?_, ?_, ?_⟩
  · intro h
    simp only [get_funding_style_class]
    rw [if_pos h]
  · rintro ⟨h1, h2⟩
    simp only [get_funding_style_class]
    rw [if_neg (by linarith), if_pos h1]
  · rintro ⟨h1, h2⟩
    simp only [get_funding_style_class]
    rw [if_neg (by linarith), if_neg (by linarith), if_pos h1]
  · intro h
    simp only [get_funding_style_class]
    rw [if_neg (by linarith), if_neg (by linarith), if_neg (by linarith),
      if_pos h]
  · rintro ⟨h1, h2⟩
    simp only [get_funding_style_class]
    rw [if_neg (by linarith), if_neg (by linarith), if_neg (by linarith),
      if_neg (by linarith)]
  · norm_num [get_funding_style_class]
  · norm_num [get_funding_style_class]
  · norm_num [get_funding_style_class]
  · norm_num [get_funding_style_class]
  · norm_num [get_funding_style_class]

/-- Claim C8 witness: the classification theorem applied at the concrete
rates 60 and -15. -/
theorem funding_severity_classification_witness :
    50 < (60 : ℚ) ∧ get_funding_style_class 60 = "funding-extreme" ∧
    (-15 : ℚ) < -10 ∧ get_funding_style_class (-15) = "funding-negative" :=
  ⟨by norm_num, (funding_severity_classification 60).1 (by norm_num),
   by norm_num, (funding_severity_classification (-15)).2.2.2.1 (by norm_num)⟩

/-- Claim C5: every bounded buffer stays within its declared capacity (25 for
liquidations, 30 for trades, 15 for whales) under every sequence of
insertions; each insertion places the new entry at the head; an insertion
into a buffer at capacity evicts exactly the oldest (last) entry. -/
theorem bounded_buffers :
    (∀ (xs : List Liq), (insertAll 25 xs ([] : List Liq)).length ≤ 25) ∧
    (∀ (xs : List Trade), (insertAll 30 xs ([] : List Trade)).length ≤ 30) ∧
    (∀ (xs : List WhaleAlert),
      (insertAll 15 xs ([] : List WhaleAlert)).length ≤ 15) ∧
    (∀ (x : Liq) (b : List Liq), (appendleftCapped 25 x b).head? = some x) ∧
    (∀ (x : Trade) (b : List Trade),
      (appendleftCapped 30 x b).head? = some x) ∧
    (∀ (x : WhaleAlert) (b : List WhaleAlert),
      (appendleftCapped 15 x b).head? = some x) ∧
    (∀ (x : Liq) (b : List Liq), b.length = 25 →
      appendleftCapped 25 x b = x :: b.dropLast) ∧
    (∀ (x : Trade) (b : List Trade), b.length = 30 →
      appendleftCapped 30 x b = x :: b.dropLast) ∧
    (∀ (x : WhaleAlert) (b : List WhaleAlert), b.length = 15 →
      appendleftCapped 15 x b = x :: b.dropLast) := by
  refine ⟨?_, ?_, ?_, ?_, ?_, ?_, ?_, ?_, ?_⟩
  · intro xs; exact insertAll_length_le 25 xs [] (by simp)
  · intro xs; exact insertAll_length_le 30 xs [] (by simp)
  · intro xs; exact insertAll_length_le 15 xs [] (by simp)
  · intro x b; rfl
  · intro x b; rfl
  · intro x b; rfl
  · intro x b hb
    have h1 : appendleftCapped 25 x b = x :: b.take 24 := rfl
    rw [h1, take_eq_dropLast b 24 hb]
  · intro x b hb
    have h1 : appendleftCapped 30 x b = x :: b.take 29 := rfl
    rw [h1, take_eq_dropLast b 29 hb]
  · intro x b hb
    have h1 : appendleftCapped 15 x b = x :: b.take 14 := rfl
    rw [h1, take_eq_dropLast b 14 hb]

/-- Claim C5 witness: the buffer theorem applied to concrete full buffers of
each class, with the capacity hypotheses discharged by evaluation. -/
theorem bounded_buffers_witness :
    (List.replicate 25 sampleLiq).length = 25 ∧
    appendleftCapped 25 sampleLiq (List.replicate 25 sampleLiq) =
      sampleLiq :: (List.replicate 25 sampleLiq).dropLast ∧
    (List.replicate 30 sampleTrade).length = 30 ∧
    appendleftCapped 30 sampleTrade (List.replicate 30 sampleTrade) =
      sampleTrade :: (List.replicate 30 sampleTrade).dropLast ∧
    (List.replicate 15 sampleWhale).length = 15 ∧
    appendleftCapped 15 sampleWhale (List.replicate 15 sampleWhale) =
      sampleWhale :: (List.replicate 15 sampleWhale).dropLast ∧
    (insertAll 25 (List.replicate 40 sampleLiq) ([] : List Liq)).length ≤ 25 :=
  ⟨by simp, bounded_buffers.2.2.2.2.2.2.1 sampleLiq _ (by simp),
   by simp, bounded_buffers.2.2.2.2.2.2.2.1 sampleTrade _ (by simp),
   by simp, bounded_buffers.2.2.2.2.2.2.2.2 sampleWhale _ (by simp),
   bounded_buffers.1 _⟩

/-- Claim C6: a liquidation message is inserted iff its notional
(filled_quantity × price) is at least 5000; a trade iff its notional
(price × quantity) is at least 15000; a whale alert is additionally created
iff the notional is at least 100000; a notional at the boundary is retained
and one below is dropped with no state change. -/
theorem threshold_filtering : ∀ (fmt : ℤ → String) (sym : List Char)
    (lm : LiqMsg) (tm : TradeMsg) (st : HubState),
    (5000 ≤ lm.z * lm.p →
      (liqStep fmt lm st).1.liqs = mkLiquidation fmt lm :: st.liqs.take 24 ∧
      (liqStep fmt lm st).2 =
        [Event.liquidation_update (mkLiquidation fmt lm :: st.liqs.take 24)]) ∧
    (lm.z * lm.p < 5000 → liqStep fmt lm st = (st, [])) ∧
    (15000 ≤ tm.p * tm.q →
      (tradeStep fmt sym tm st).1.trades =
        mkTrade fmt sym tm :: st.trades.take 29) ∧
    (tm.p * tm.q < 15000 → tradeStep fmt sym tm st = (st, [])) ∧
    (100000 ≤ tm.p * tm.q →
      (tradeStep fmt sym tm st).1.whales =
        mkWhale fmt sym tm :: st.whales.take 14) ∧
    (15000 ≤ tm.p * tm.q → tm.p * tm.q < 100000 →
      (tradeStep fmt sym tm st).1.whales = st.whales) := by
  intro fmt sym lm tm st
  refine ⟨?_, ?_, ?_, ?_, ?_, ?_⟩
  · intro h
    simp only [liqStep]
    rw [if_pos h]
    exact ⟨rfl, rfl⟩
  · intro h
    simp only [liqStep]
    rw [if_neg (not_le.mpr h)]
  · intro h
    simp only [tradeStep]
    rw [if_pos h]
    by_cases h2 : 100000 ≤ tm.p * tm.q
    · rw [if_pos h2]
      rfl
    · rw [if_neg h2]
      rfl
  · intro h
    simp only [tradeStep]
    rw [if_neg (not_le.mpr h)]
  · intro h
    simp only [tradeStep]
    rw [if_pos (by linarith : (15000 : ℚ) ≤ tm.p * tm.q), if_pos h]
    rfl
  · intro h1 h2
    simp only [tradeStep]
    rw [if_pos h1, if_neg (not_le.mpr h2)]

/-- Claim C6 witness: the threshold theorem at the concrete boundary inputs —
notional 5000/4999 for liquidations, 15000/14999 for trades, 100000/99999 for
whales. -/
theorem threshold_filtering_witness :
    (5000 : ℚ) ≤ lmA.z * lmA.p ∧
    (liqStep fmt0 lmA initial_hub).1.liqs =
      mkLiquidation fmt0 lmA :: initial_hub.liqs.take 24 ∧
    lmB.z * lmB.p < (5000 : ℚ) ∧
    liqStep fmt0 lmB initial_hub = (initial_hub, []) ∧
    (15000 : ℚ) ≤ tmA.p * tmA.q ∧
    (tradeStep fmt0 (String.toList "btcusdt") tmA initial_hub).1.trades =
      mkTrade fmt0 (String.toList "btcusdt") tmA :: initial_hub.trades.take 29 ∧
    tmB.p * tmB.q < (15000 : ℚ) ∧
    tradeStep fmt0 (String.toList "btcusdt") tmB initial_hub =
      (initial_hub, []) ∧
    (100000 : ℚ) ≤ tmC.p * tmC.q ∧
    (tradeStep fmt0 (String.toList "btcusdt") tmC initial_hub).1.whales =
      mkWhale fmt0 (String.toList "btcusdt") tmC ::
        initial_hub.whales.take 14 ∧
    tmD.p * tmD.q < (100000 : ℚ) ∧
    (tradeStep fmt0 (String.toList "btcusdt") tmD initial_hub).1.whales =
      initial_hub.whales :=
  ⟨by norm_num [lmA],
   ((threshold_filtering fmt0 (String.toList "btcusdt") lmA tmA
      initial_hub).1 (by norm_num [lmA])).1,
   by norm_num [lmB],
   (threshold_filtering fmt0 (String.toList "btcusdt") lmB tmA
      initial_hub).2.1 (by norm_num [lmB]),
   by norm_num [tmA],
   (threshold_filtering fmt0 (String.toList "btcusdt") lmA tmA
      initial_hub).2.2.1 (by norm_num [tmA]),
   by norm_num [tmB],
   (threshold_filtering fmt0 (String.toList "btcusdt") lmA tmB
      initial_hub).2.2.2.1 (by norm_num [tmB]),
   by norm_num [tmC],
   (threshold_filtering fmt0 (String.toList "btcusdt") lmA tmC
      initial_hub).2.2.2.2.1 (by norm_num [tmC]),
   by norm_num [tmD],
   (threshold_filtering fmt0 (String.toList "btcusdt") lmA tmD
      initial_hub).2.2.2.2.2 (by norm_num [tmD]) (by norm_num [tmD])⟩

/-- Claim C9: a whale alert's tier is mega for notional ≥ 1000000, huge for
500000 ≤ notional < 1000000, big for 100000 ≤ notional < 500000; its
direction is BUY exactly when isBuyerMaker is false; and the scenario trade
(price 50000, quantity 3, isBuyerMaker false) emits both a whale_alert_update
and a trade_update event, with tier big and direction BUY. -/
theorem whale_tier_direction : ∀ (fmt : ℤ → String) (sym : List Char)
    (tm : TradeMsg) (st : HubState) (t : ℤ),
    (100000 ≤ tm.p * tm.q →
      (1000000 ≤ tm.p * tm.q →
        (mkWhale fmt sym tm).whale_class = "whale-mega" ∧
        (mkWhale fmt sym tm).size_indicator = "MEGA") ∧
      (500000 ≤ tm.p * tm.q ∧ tm.p * tm.q < 1000000 →
        (mkWhale fmt sym tm).whale_class = "whale-huge" ∧
        (mkWhale fmt sym tm).size_indicator = "HUGE") ∧
      (tm.p * tm.q < 500000 →
        (mkWhale fmt sym tm).whale_class = "whale-big" ∧
        (mkWhale fmt sym tm).size_indicator = "BIG") ∧
      ((mkWhale fmt sym tm).type = "BUY" ↔ tm.m = false) ∧
      (tradeStep fmt sym tm st).2 =
        [Event.whale_alert_update (mkWhale fmt sym tm :: st.whales.take 14),
         Event.trade_update (mkTrade fmt sym tm :: st.trades.take 29)]) ∧
    (tradeStep fmt sym { p := 50000, q := 3, T := t, m := false } st).2 =
      [Event.whale_alert_update
        (mkWhale fmt sym { p := 50000, q := 3, T := t, m := false } ::
          st.whales.take 14),
       Event.trade_update
        (mkTrade fmt sym { p := 50000, q := 3, T := t, m := false } ::
          st.trades.take 29)] ∧
    (mkWhale fmt sym
      { p := 50000, q := 3, T := t, m := false }).whale_class = "whale-big" ∧
    (mkWhale fmt sym
      { p := 50000, q := 3, T := t, m := false }).size_indicator = "BIG" ∧
    (mkWhale fmt sym { p := 50000, q := 3, T := t, m := false }).type = "BUY" := by
  intro fmt sym tm st t
  have hpq : ({ p := 50000, q := 3, T := t, m := false } : TradeMsg).p *
      ({ p := 50000, q := 3, T := t, m := false } : TradeMsg).q = 150000 := by
    norm_num
  refine ⟨?_, ?_, ?_, ?_, ?_⟩
  · intro h
    refine ⟨?_, ?_, ?_, ?_, ?_⟩
    · intro h1
      constructor <;> (simp only [mkWhale]; rw [if_pos h1])
    · rintro ⟨h1, h2⟩
      constructor <;>
        (simp only [mkWhale]; rw [if_neg (not_le.mpr h2), if_pos h1])
    · intro h1
      constructor <;>
        (simp only [mkWhale];
         rw [if_neg (not_le.mpr (by linarith : tm.p * tm.q < 1000000)),
           if_neg (not_le.mpr h1)])
    · cases hm : tm.m
      · simp [mkWhale, mkTrade, hm]
      · simp [mkWhale, mkTrade, hm]
    · simp only [tradeStep]
      rw [if_pos (by linarith : (15000 : ℚ) ≤ tm.p * tm.q), if_pos h]
      rfl
  · simp only [tradeStep, hpq]
    rw [if_pos (by norm_num : (15000 : ℚ) ≤ 150000),
      if_pos (by norm_num : (100000 : ℚ) ≤ 150000)]
    rfl
  · simp only [mkWhale, hpq]
    rw [if_neg (by norm_num : ¬ ((1000000 : ℚ) ≤ 150000)),
      if_neg (by norm_num : ¬ ((500000 : ℚ) ≤ 150000))]
  · simp only [mkWhale, hpq]
    rw [if_neg (by norm_num : ¬ ((1000000 : ℚ) ≤ 150000)),
      if_neg (by norm_num : ¬ ((500000 : ℚ) ≤ 150000))]
  · rfl

/-- Claim C9 witness: the whale theorem at the scenario trade itself
(notional 150000), with all hypotheses discharged numerically. -/
theorem whale_tier_direction_witness :
    (100000 : ℚ) ≤ tmE.p * tmE.q ∧
    tmE.p * tmE.q < (500000 : ℚ) ∧
    (mkWhale fmt0 (String.toList "btcusdt") tmE).whale_class = "whale-big" ∧
    (mkWhale fmt0 (String.toList "btcusdt") tmE).size_indicator = "BIG" ∧
    ((mkWhale fmt0 (String.toList "btcusdt") tmE).type = "BUY" ↔
      tmE.m = false) ∧
    (tradeStep fmt0 (String.toList "btcusdt") tmE initial_hub).2 =
      [Event.whale_alert_update
        (mkWhale fmt0 (String.toList "btcusdt") tmE ::
          initial_hub.whales.take 14),
       Event.trade_update
        (mkTrade fmt0 (String.toList "btcusdt") tmE ::
          initial_hub.trades.take 29)] :=
  ⟨by norm_num [tmE], by norm_num [tmE],
   (((whale_tier_direction fmt0 (String.toList "btcusdt") tmE initial_hub
      0).1 (by norm_num [tmE])).2.2.1 (by norm_num [tmE])).1,
   (((whale_tier_direction fmt0 (String.toList "btcusdt") tmE initial_hub
      0).1 (by norm_num [tmE])).2.2.1 (by norm_num [tmE])).2,
   ((whale_tier_direction fmt0 (String.toList "btcusdt") tmE initial_hub
      0).1 (by norm_num [tmE])).2.2.2.1,
   ((whale_tier_direction fmt0 (String.toList "btcusdt") tmE initial_hub
      0).1 (by norm_num [tmE])).2.2.2.2⟩

/-- Claim C10 (implicit): every trade event and every whale alert event
inserted has a symbol of at most 4 characters; for every configured stream
symbol the symbol equals the uppercased stream symbol with the `USDT` suffix
removed, truncated to its first 4 characters. -/
theorem trade_symbol_truncation : ∀ (fmt : ℤ → String) (sym : List Char)
    (tm : TradeMsg) (st : HubState),
    (mkTrade fmt sym tm).symbol.length ≤ 4 ∧
    (mkWhale fmt sym tm).symbol = (mkTrade fmt sym tm).symbol ∧
    (sym ∈ symbols →
      (mkTrade fmt sym tm).symbol =
        (dropUSDTSuffix (sym.map Char.toUpper)).take 4) ∧
    (15000 ≤ tm.p * tm.q →
      (tradeStep fmt sym tm st).1.trades =
        mkTrade fmt sym tm :: st.trades.take 29) ∧
    (100000 ≤ tm.p * tm.q →
      (tradeStep fmt sym tm st).1.whales =
        mkWhale fmt sym tm :: st.whales.take 14) := by
  intro fmt sym tm st
  refine ⟨?_, rfl, ?_, ?_, ?_⟩
  · simp [mkTrade, List.length_take]
  · intro h
    fin_cases h <;> rfl
  · intro h
    simp only [tradeStep]
    rw [if_pos h]
    by_cases h2 : 100000 ≤ tm.p * tm.q
    · rw [if_pos h2]
      rfl
    · rw [if_neg h2]
      rfl
  · intro h
    simp only [tradeStep]
    rw [if_pos (by linarith : (15000 : ℚ) ≤ tm.p * tm.q), if_pos h]
    rfl

/-- Claim C10 witness: the truncation theorem at the configured symbol
btcusdt and the scenario trade, with all hypotheses discharged. -/
theorem trade_symbol_truncation_witness :
    String.toList "btcusdt" ∈ symbols ∧
    (15000 : ℚ) ≤ tmE.p * tmE.q ∧
    (100000 : ℚ) ≤ tmE.p * tmE.q ∧
    (mkTrade fmt0 (String.toList "btcusdt") tmE).symbol.length ≤ 4 ∧
    (mkTrade fmt0 (String.toList "btcusdt") tmE).symbol =
      (dropUSDTSuffix ((String.toList "btcusdt").map Char.toUpper)).take 4 ∧
    (mkWhale fmt0 (String.toList "btcusdt") tmE).symbol =
      (mkTrade fmt0 (String.toList "btcusdt") tmE).symbol :=
  ⟨by decide, by norm_num [tmE], by norm_num [tmE],
   (trade_symbol_truncation fmt0 (String.toList "btcusdt") tmE
      initial_hub).1,
   (trade_symbol_truncation fmt0 (String.toList "btcusdt") tmE
      initial_hub).2.2.1 (by decide),
   (trade_symbol_truncation fmt0 (String.toList "btcusdt") tmE
      initial_hub).2.1⟩

/-- Claim C4: publishing to a duplicate-free registry delivers to exactly the
subscribers whose send succeeds, never raises past the hub (the function is
total), and afterwards exactly the subscribers whose send failed have been
removed from the registry. -/
theorem broadcast_fanout_isolation : ∀ (send : Client → Bool)
    (clients : List Client), clients.Nodup →
    (broadcast_to_clients send clients).1 =
      clients.filter (fun c => send c) ∧
    (broadcast_to_clients send clients).2 =
      clients.filter (fun c => send c) := by
  intro send clients h
  by_cases hc : clients.isEmpty
  · have hnil : clients = [] := by
      cases clients with
      | nil => rfl
      | cons a l => simp [List.isEmpty] at hc
    subst hnil
    exact ⟨rfl, rfl⟩
  · constructor
    · simp only [broadcast_to_clients]
      rw [if_neg hc]
    · simp only [broadcast_to_clients]
      rw [if_neg hc]
      exact foldl_erase_filter send clients h

/-- Claim C4 witness: three registered subscribers of which exactly client 1
has a broken transport; the other two are delivered to and client 1 alone is
removed. -/
theorem broadcast_fanout_isolation_witness :
    ([0, 1, 2] : List Client).Nodup ∧
    sendW 1 = false ∧ sendW 0 = true ∧ sendW 2 = true ∧
    (broadcast_to_clients sendW [0, 1, 2]).1 = [0, 2] ∧
    (broadcast_to_clients sendW [0, 1, 2]).2 = [0, 2] := by
  have h := broadcast_fanout_isolation sendW [0, 1, 2] (by decide)
  refine ⟨by decide, by decide, by decide, by decide, ?_, ?_⟩
  · rw [h.1]; rfl
  · rw [h.2]; rfl

/-- Claim C1 counterexample: unregistering the same subscriber twice is not a
no-op — the second call raises (Python `list.remove` raises `ValueError` for
an absent element), contradicting the claimed idempotence. -/
theorem unregister_twice_raises_cex :
    unregister [0] 0 = Except.ok ([] : List Client) ∧
    (unregister [0] 0).bind (fun l => unregister l 0) =
      Except.error "ValueError" :=
  ⟨rfl, rfl⟩

/-- Claim C1 (amended): unregistering a present subscriber removes its first
occurrence; unregistering an absent subscriber raises `ValueError` instead of
being a no-op, so for a singly-registered subscriber the second of two
unregister calls raises. -/
theorem unregister_semantics : ∀ (l : List Client) (c : Client),
    (c ∈ l → unregister l c = Except.ok (l.erase c)) ∧
    (c ∉ l → unregister l c = Except.error "ValueError") ∧
    (l.count c = 1 →
      unregister l c = Except.ok (l.erase c) ∧
      unregister (l.erase c) c = Except.error "ValueError") := by
  intro l c
  refine ⟨fun h => ?_, fun h => ?_, fun h => ?_⟩
  · simp [unregister, h]
  · simp [unregister, h]
  · have hmem : c ∈ l := List.count_pos_iff.mp (by omega)
    have hnot : c ∉ l.erase c := by
      have hce := List.count_erase_self c l
      rw [h] at hce
      intro hc
      have := List.count_pos_iff.mpr hc
      omega
    exact ⟨by simp [unregister, hmem], by simp [unregister, hnot]⟩

/-- Claim C1 witness: the amended unregister semantics at the concrete
registry `[0]` and subscriber `0`. -/
theorem unregister_semantics_witness :
    (0 : Client) ∈ ([0] : List Client) ∧
    ([0] : List Client).count 0 = 1 ∧
    unregister [0] 0 = Except.ok (([0] : List Client).erase 0) ∧
    unregister (([0] : List Client).erase 0) 0 =
      Except.error "ValueError" :=
  ⟨by decide, by decide,
   ((unregister_semantics [0] 0).2.2 (by decide)).1,
   ((unregister_semantics [0] 0).2.2 (by decide)).2⟩

/-- Claim C2 counterexample: in the liquidation and trade streams an
unparseable message is caught by the generic handler and breaks out of the
receive loop — closing the connection — rather than being discarded with the
connection kept open; a subsequent well-formed message on the same connection
is never processed. -/
theorem parse_failure_breaks_cex :
    (liqInner fmt0 InMsg.unparseable initial_hub).2.2 = Flow.brk ∧
    (tradeInner fmt0 (String.toList "btcusdt") InMsg.unparseable
      initial_hub).2.2 = Flow.brk ∧
    runInner (liqInner fmt0) [InMsg.unparseable, InMsg.ok lmA] initial_hub =
      (initial_hub, []) ∧
    Flow.brk ≠ Flow.cont :=
  ⟨rfl, rfl, rfl, by decide⟩

/-- Claim C2 (amended): only the funding stream discards an unparseable
message and keeps receiving on the same connection; the liquidation and trade
streams close the current connection on a parse failure (their generic
handler breaks); in every stream no state mutation or broadcast occurs for
the unparseable message. -/
theorem parse_failure_per_stream : ∀ (fmt : ℤ → String) (sym : List Char)
    (st : HubState) (restF : List (InMsg FundingMsg))
    (restL : List (InMsg LiqMsg)) (restT : List (InMsg TradeMsg)),
    fundingInner sym InMsg.unparseable st = (st, [], Flow.cont) ∧
    liqInner fmt InMsg.unparseable st = (st, [], Flow.brk) ∧
    tradeInner fmt sym InMsg.unparseable st = (st, [], Flow.brk) ∧
    runInner (fundingInner sym) (InMsg.unparseable :: restF) st =
      runInner (fundingInner sym) restF st ∧
    runInner (liqInner fmt) (InMsg.unparseable :: restL) st = (st, []) ∧
    runInner (tradeInner fmt sym) (InMsg.unparseable :: restT) st =
      (st, []) := by
  intro fmt sym st restF restL restT
  refine ⟨rfl, rfl, rfl, ?_, rfl, rfl⟩
  show ((runInner (fundingInner sym) restF st).1,
      [] ++ (runInner (fundingInner sym) restF st).2) = _
  simp

/-- Claim C3 counterexample: a processing error in the trade stream breaks
out of the `async with` block without an exception, so the outer `except` —
and its 5-unit sleep — is skipped: the next connection attempt happens after
0 time-units, not 5. -/
theorem processing_error_no_backoff_cex :
    (outerIter (tradeInner fmt0 (String.toList "btcusdt")) initial_hub
      (OuterEvent.session [InMsg.malformed])).2.2 = 0 ∧
    (outerIter (tradeInner fmt0 (String.toList "btcusdt")) initial_hub
      (OuterEvent.session [InMsg.malformed])).2.2 ≠ 5 :=
  ⟨rfl, by decide⟩

/-- Claim C3 (amended): in every feed consumer a processing error other than
a parse failure closes the current connection and re-enters the reconnect
loop immediately, with no backoff wait; the fixed 5 time-unit backoff applies
only to connection-open failures; the retry loop never terminates the
process — every connection outcome is followed by a further attempt. -/
theorem reconnect_backoff_semantics : ∀ (fmt : ℤ → String) (sym : List Char)
    (st : HubState) (msgsF : List (InMsg FundingMsg))
    (msgsL : List (InMsg LiqMsg)) (msgsT : List (InMsg TradeMsg))
    (evsF : List (OuterEvent FundingMsg)) (evsL : List (OuterEvent LiqMsg))
    (evsT : List (OuterEvent TradeMsg)),
    (outerIter (fundingInner sym) st OuterEvent.openFail).2.2 = 5 ∧
    (outerIter (liqInner fmt) st OuterEvent.openFail).2.2 = 5 ∧
    (outerIter (tradeInner fmt sym) st OuterEvent.openFail).2.2 = 5 ∧
    (outerIter (fundingInner sym) st (OuterEvent.session msgsF)).2.2 = 0 ∧
    (outerIter (liqInner fmt) st (OuterEvent.session msgsL)).2.2 = 0 ∧
    (outerIter (tradeInner fmt sym) st (OuterEvent.session msgsT)).2.2 = 0 ∧
    (runConsumer (fundingInner sym) evsF st).2.2 = evsF.length ∧
    (runConsumer (liqInner fmt) evsL st).2.2 = evsL.length ∧
    (runConsumer (tradeInner fmt sym) evsT st).2.2 = evsT.length := by
  intro fmt sym st msgsF msgsL msgsT evsF evsL evsT
  exact ⟨rfl, rfl, rfl, rfl, rfl, rfl,
    runConsumer_attempts _ evsF st, runConsumer_attempts _ evsL st,
    runConsumer_attempts _ evsT st⟩

/-- Claim C7: after any number of prior updates, a newly registering
subscriber is added to the live set and its connection has been sent exactly
one event — the initial_data event whose payload is the complete current
contents of all four containers; no update event from before its registration
is replayed to it. -/
theorem snapshot_on_join : ∀ (fmt : ℤ → String) (ops : List UpdateOp)
    (c : Client) (s0 : Sys), c ∉ s0.clients → s0.inbox c = [] →
    c ∈ (registerClient
        (ops.foldl (fun s op => applySysUpdate fmt op s) s0) c).clients ∧
    (registerClient
        (ops.foldl (fun s op => applySysUpdate fmt op s) s0) c).inbox c =
      [Event.initial_data
        (ops.foldl (fun s op => applySysUpdate fmt op s) s0).st.funding
        (ops.foldl (fun s op => applySysUpdate fmt op s) s0).st.liqs
        (ops.foldl (fun s op => applySysUpdate fmt op s) s0).st.trades
        (ops.foldl (fun s op => applySysUpdate fmt op s) s0).st.whales] := by
  intro fmt ops c s0 h1 h2
  constructor
  · simp [registerClient]
  · have hin := foldl_applySysUpdate_inbox_of_not_mem fmt ops s0 c h1
    simp [registerClient, hin, h2]

/-- Claim C7 witness: a fresh subscriber joining the initial system after one
liquidation update receives exactly the snapshot of the then-current state. -/
theorem snapshot_on_join_witness :
    (0 : Client) ∉ initialSys.clients ∧ initialSys.inbox 0 = [] ∧
    (0 : Client) ∈ (registerClient
        (([UpdateOp.liq lmA]).foldl
          (fun s op => applySysUpdate fmt0 op s) initialSys) 0).clients ∧
    (registerClient
        (([UpdateOp.liq lmA]).foldl
          (fun s op => applySysUpdate fmt0 op s) initialSys) 0).inbox 0 =
      [Event.initial_data
        (([UpdateOp.liq lmA]).foldl
          (fun s op => applySysUpdate fmt0 op s) initialSys).st.funding
        (([UpdateOp.liq lmA]).foldl
          (fun s op => applySysUpdate fmt0 op s) initialSys).st.liqs
        (([UpdateOp.liq lmA]).foldl
          (fun s op => applySysUpdate fmt0 op s) initialSys).st.trades
        (([UpdateOp.liq lmA]).foldl
          (fun s op => applySysUpdate fmt0 op s) initialSys).st.whales] :=
  have h := snapshot_on_join fmt0 [UpdateOp.liq lmA] 0 initialSys
    (by simp [initialSys]) rfl
  ⟨by simp [initialSys], rfl, h.1, h.2⟩

end WebMonitor
